import Mathlib

/-!
Verification of the boxing registry and ring simulator.

Shallow embedding of `boxing/models/boxers_model.py` and
`boxing/models/ring_model.py`. The SQLite `boxers` table is modelled as a
list of rows; every operation that touches the store takes the current
list and returns an `Except` carrying either an error or the result of the
operation (and the new table where the operation writes). Python `ValueError`,
`TypeError` and `sqlite3.IntegrityError` are the three error shapes the code
raises; messages are carried verbatim so distinct raise sites stay distinct.
`float` values (reach, win percentages, skill) are modelled as rationals;
the logistic probability in `fight` is modelled over the reals.
-/

namespace Boxing

/-- The error shapes raised by the Python code: `ValueError(msg)`,
`TypeError(msg)` and `sqlite3.IntegrityError`. -/
inductive Err where
  | valueError (msg : String)
  | typeError (msg : String)
  | integrityError
  deriving Repr, DecidableEq

/-- One row of the `boxers` table:
`boxers(id PK, name UNIQUE, weight, height, reach, age, fights DEFAULT 0, wins DEFAULT 0)`. -/
structure BoxerRow where
  id : Int
  name : String
  weight : Int
  height : Int
  reach : ℚ
  age : Int
  fights : Int
  wins : Int
  deriving Repr, DecidableEq

/-- Function `get_weight_class` from `boxers_model.py`: nested `if`/`elif` on the
weight, raising `ValueError` below 125. -/
def get_weight_class (weight : Int) : Except Err String :=
  if weight ≥ 203 then .ok "HEAVYWEIGHT"
  else if weight ≥ 166 then .ok "MIDDLEWEIGHT"
  else if weight ≥ 133 then .ok "LIGHTWEIGHT"
  else if weight ≥ 125 then .ok "FEATHERWEIGHT"
  else .error (.valueError s!"Invalid weight: {weight}. Weight must be at least 125.")

/-- The weight-class table of spec section 3, written exactly as the spec
ranges state it (used only to compare against `get_weight_class`). -/
def spec_weight_class (w : Int) : Option String :=
  if 203 ≤ w then some "HEAVYWEIGHT"
  else if 166 ≤ w ∧ w ≤ 202 then some "MIDDLEWEIGHT"
  else if 133 ≤ w ∧ w ≤ 165 then some "LIGHTWEIGHT"
  else if 125 ≤ w ∧ w ≤ 132 then some "FEATHERWEIGHT"
  else none

/-- An in-memory `Boxer` snapshot (the dataclass). `weight_class` is set by
`__post_init__`, never passed by callers. -/
structure Boxer where
  id : Int
  name : String
  weight : Int
  height : Int
  reach : ℚ
  age : Int
  weight_class : String
  deriving Repr, DecidableEq

/-- The dataclass constructor together with `Boxer.__post_init__`, which
derives `weight_class` from `weight` via `get_weight_class` and therefore
propagates its `ValueError` when `weight < 125`. -/
def mkBoxer (id : Int) (name : String) (weight height : Int) (reach : ℚ)
    (age : Int) : Except Err Boxer :=
  match get_weight_class weight with
  | .ok wc => .ok ⟨id, name, weight, height, reach, age, wc⟩
  | .error e => .error e

/-- The id the store assigns to a fresh row (SQLite rowid: larger than any
existing id). -/
def next_id (db : List BoxerRow) : Int :=
  (db.map BoxerRow.id).foldr max 0 + 1

/-- The store-side `INSERT` in `create_boxer`: the `UNIQUE` constraint on
`name` surfaces as `sqlite3.IntegrityError` when the name is present. -/
def insert_boxer (db : List BoxerRow) (name : String) (weight height : Int)
    (reach : ℚ) (age : Int) : Except Err (List BoxerRow) :=
  if db.any (fun r => r.name = name) then .error .integrityError
  else .ok (db ++ [⟨next_id db, name, weight, height, reach, age, 0, 0⟩])

/-- The `except sqlite3.IntegrityError` handler at the end of
`create_boxer`: an integrity error is re-raised as the same `ValueError`
the explicit pre-check raises; all other errors pass through. -/
def normalize_create_error (name : String) : Err → Err
  | .integrityError => .valueError s!"Boxer with name \x27{name}\x27 already exists"
  | e => e

/-- Function `create_boxer` from `boxers_model.py`: four field validations, the
explicit duplicate-name pre-check, the `INSERT`, and the handler that maps
`sqlite3.IntegrityError` onto the duplicate-name `ValueError`. -/
def create_boxer (db : List BoxerRow) (name : String) (weight height : Int)
    (reach : ℚ) (age : Int) : Except Err (List BoxerRow) :=
  if weight < 125 then
    .error (.valueError s!"Invalid weight: {weight}. Must be at least 125.")
  else if height ≤ 0 then
    .error (.valueError s!"Invalid height: {height}. Must be greater than 0.")
  else if reach ≤ 0 then
    .error (.valueError s!"Invalid reach: {reach}. Must be greater than 0.")
  else if ¬ (18 ≤ age ∧ age ≤ 40) then
    .error (.valueError s!"Invalid age: {age}. Must be between 18 and 40.")
  else
    let tryResult :=
      if db.any (fun r => r.name = name) then
        Except.error (Err.valueError s!"Boxer with name \x27{name}\x27 already exists")
      else insert_boxer db name weight height reach age
    match tryResult with
    | .error e => .error (normalize_create_error name e)
    | .ok db2 => .ok db2

/-- Function `get_boxer_by_id`: `SELECT ... WHERE id = ?`, building a `Boxer`
snapshot from the row or raising `ValueError` when absent. -/
def get_boxer_by_id (db : List BoxerRow) (boxer_id : Int) : Except Err Boxer :=
  match db.find? (fun r => r.id = boxer_id) with
  | some row => mkBoxer row.id row.name row.weight row.height row.reach row.age
  | none => .error (.valueError s!"Boxer with ID {boxer_id} not found.")

/-- Function `get_boxer_by_name`: `SELECT ... WHERE name = ?`, building a `Boxer`
snapshot from the row or raising `ValueError` when absent. -/
def get_boxer_by_name (db : List BoxerRow) (boxer_name : String) : Except Err Boxer :=
  match db.find? (fun r => r.name = boxer_name) with
  | some row => mkBoxer row.id row.name row.weight row.height row.reach row.age
  | none => .error (.valueError s!"Boxer \x27{boxer_name}\x27 not found.")

/-- Function `update_boxer_stats`: validates the `result` string, checks the id
exists, then runs the `UPDATE` (both counters on a win, `fights` only on a
loss). -/
def update_boxer_stats (db : List BoxerRow) (boxer_id : Int) (result : String) :
    Except Err (List BoxerRow) :=
  if result ≠ "win" ∧ result ≠ "loss" then
    .error (.valueError s!"Invalid result: {result}. Expected \x27win\x27 or \x27loss\x27.")
  else if db.all (fun r => r.id ≠ boxer_id) then
    .error (.valueError s!"Boxer with ID {boxer_id} not found.")
  else if result = "win" then
    .ok (db.map (fun r => if r.id = boxer_id then
      { r with fights := r.fights + 1, wins := r.wins + 1 } else r))
  else
    .ok (db.map (fun r => if r.id = boxer_id then
      { r with fights := r.fights + 1 } else r))

/-- The `win_pct` column the leaderboard query computes:
`wins * 1.0 / fights`. -/
def win_pct_raw (r : BoxerRow) : ℚ := r.wins / r.fights

/-- Python `round(x, 1)` on the rationals of the model: one decimal place. -/
def round1 (q : ℚ) : ℚ := (round (q * 10) : ℤ) / 10

/-- One dictionary of the leaderboard result list. -/
structure LeaderboardEntry where
  id : Int
  name : String
  weight : Int
  height : Int
  reach : ℚ
  age : Int
  weight_class : String
  fights : Int
  wins : Int
  win_pct : ℚ
  deriving Repr, DecidableEq

/-- The loop body of `get_leaderboard`: builds the dictionary for one row,
calling `get_weight_class` (which raises below weight 125) and converting
`win_pct` to a percentage rounded to one decimal. -/
def leaderboard_entry (r : BoxerRow) : Except Err LeaderboardEntry :=
  match get_weight_class r.weight with
  | .ok wc => .ok ⟨r.id, r.name, r.weight, r.height, r.reach, r.age, wc,
      r.fights, r.wins, round1 (win_pct_raw r * 100)⟩
  | .error e => .error e

/-- Function `get_leaderboard`: validates `sort_by`, selects the rows with
`fights > 0` ordered descending by the chosen metric (SQL `ORDER BY`,
modelled as a merge sort on the metric), and builds one dictionary per
row. -/
def get_leaderboard (db : List BoxerRow) (sort_by : String) :
    Except Err (List LeaderboardEntry) :=
  if sort_by ≠ "win_pct" ∧ sort_by ≠ "wins" then
    .error (.valueError s!"Invalid sort_by parameter: {sort_by}")
  else
    let rows := db.filter (fun r => r.fights > 0)
    let sorted := if sort_by = "win_pct" then
        rows.mergeSort (fun a b => decide (win_pct_raw b ≤ win_pct_raw a))
      else
        rows.mergeSort (fun a b => decide (b.wins ≤ a.wins))
    sorted.mapM leaderboard_entry

/-! ## Ring simulator (`ring_model.py`) -/

/-- The argument of `enter_ring` as the dynamically-typed Python call sees
it: either an actual `Boxer` or a value of some other runtime type. -/
inductive RingArg where
  | boxer (b : Boxer)
  | notBoxer (typeName : String)

/-- Method `RingModel.get_fighting_skill`: weight × name length + reach/10 + age
modifier (−1 under 25, −2 over 35, else 0). -/
def get_fighting_skill (boxer : Boxer) : ℚ :=
  let age_modifier : ℚ := if boxer.age < 25 then -1 else if boxer.age > 35 then -2 else 0
  (boxer.weight : ℚ) * (boxer.name.length : ℚ) + boxer.reach / 10 + age_modifier

/-- Method `RingModel.enter_ring`: `TypeError` for a non-`Boxer` argument,
`ValueError` when two boxers are already in the ring, else append. -/
def enter_ring (ring : List Boxer) (arg : RingArg) : Except Err (List Boxer) :=
  match arg with
  | .notBoxer t =>
      .error (.typeError s!"Invalid type: Expected \x27Boxer\x27, got \x27{t}\x27")
  | .boxer b =>
      if ring.length ≥ 2 then .error (.valueError "Ring is full, cannot add more boxers.")
      else .ok (ring ++ [b])

/-- Method `RingModel.clear_ring`: on an empty ring only a warning is logged and
the (empty) ring is returned; otherwise the list is cleared. -/
def clear_ring (ring : List Boxer) : List Boxer :=
  if ring.isEmpty then ring else []

/-- The logistic normalisation in `RingModel.fight`:
`1 / (1 + math.e ** (-delta))`. -/
noncomputable def normalized_delta (delta : ℝ) : ℝ := 1 / (1 + Real.exp (-delta))

/-- What a successful `fight` leaves behind: the returned winner name, the
ring after `clear_ring`, and the table after the two stat updates. -/
structure FightOutcome where
  winnerName : String
  ring : List Boxer
  db : List BoxerRow
  deriving Repr, DecidableEq

/-- Method `RingModel.fight`: fails when fewer than two boxers are present;
otherwise computes both skills, the logistic of the absolute skill gap,
compares it against the externally drawn `random_number`, persists a win
and a loss via `update_boxer_stats`, clears the ring and returns the
name of the winner. The random draw (`get_random()`, an external collaborator
returning a uniform float in [0,1)) enters as the parameter
`random_number`. -/
noncomputable def fight (ring : List Boxer) (db : List BoxerRow)
    (random_number : ℝ) : Except Err FightOutcome :=
  match ring with
  | boxer_1 :: boxer_2 :: _ =>
      let skill_1 := get_fighting_skill boxer_1
      let skill_2 := get_fighting_skill boxer_2
      let delta : ℚ := |skill_1 - skill_2|
      let nd : ℝ := normalized_delta (delta : ℝ)
      let winner : Boxer := if random_number < nd then boxer_1 else boxer_2
      let loser : Boxer := if random_number < nd then boxer_2 else boxer_1
      match update_boxer_stats db winner.id "win" with
      | .error e => .error e
      | .ok db1 =>
          match update_boxer_stats db1 loser.id "loss" with
          | .error e => .error e
          | .ok db2 => .ok ⟨winner.name, clear_ring ring, db2⟩
  | _ => .error (.valueError "There must be two boxers to start a fight.")

/-! ## Sample data used by witnesses -/

/-- A stored row for a heavyweight. -/
def aliRow : BoxerRow := ⟨1, "Ali", 210, 180, 80, 30, 0, 0⟩

/-- A stored row for a lightweight who has fought. -/
def bobRow : BoxerRow := ⟨2, "Bob", 140, 170, 70, 22, 3, 2⟩

/-- A sample two-row table. -/
def sampleDb : List BoxerRow := [aliRow, bobRow]

/-- The snapshot of `aliRow`. -/
def ali : Boxer := ⟨1, "Ali", 210, 180, 80, 30, "HEAVYWEIGHT"⟩

/-- The snapshot of `bobRow`. -/
def bob : Boxer := ⟨2, "Bob", 140, 170, 70, 22, "LIGHTWEIGHT"⟩

/-! ## Helper lemmas -/

/-- Lemma: `get_weight_class` succeeds exactly on weights of at least 125. -/
lemma get_weight_class_ok_of_le {w : Int} (h : 125 ≤ w) :
    ∃ wc, get_weight_class w = .ok wc := by
  unfold get_weight_class
  split_ifs <;> exact ⟨_, rfl⟩

/-- When `get_weight_class` succeeds, the weight was at least 125. -/
lemma le_of_get_weight_class_ok {w : Int} {wc : String}
    (h : get_weight_class w = .ok wc) : 125 ≤ w := by
  by_contra hlt
  unfold get_weight_class at h
  split_ifs at h <;> omega

/-! ## C5: the weight-class mapping matches the spec table -/

/-- C5: for every weight `w`, `get_weight_class` agrees with the
authoritative table at every point (and hence every boundary): ≥203 gives
HEAVYWEIGHT, 166–202 MIDDLEWEIGHT, 133–165 LIGHTWEIGHT, 125–132
FEATHERWEIGHT, and below 125 is rejected. -/
theorem get_weight_class_matches_table :
    ∀ w : Int, (get_weight_class w).toOption = spec_weight_class w := by
  intro w
  unfold get_weight_class spec_weight_class
  split_ifs <;> first | rfl | omega

/-! ## C3: the fighting-skill formula -/

/-- C3: `get_fighting_skill` is the deterministic pure value
weight × length(name) + reach/10 + age modifier, the modifier being −1
below age 25, −2 above 35, and 0 otherwise. -/
theorem get_fighting_skill_formula (b : Boxer) :
    (b.age < 25 →
      get_fighting_skill b = (b.weight : ℚ) * (b.name.length : ℚ) + b.reach / 10 - 1) ∧
    (b.age > 35 →
      get_fighting_skill b = (b.weight : ℚ) * (b.name.length : ℚ) + b.reach / 10 - 2) ∧
    (25 ≤ b.age ∧ b.age ≤ 35 →
      get_fighting_skill b = (b.weight : ℚ) * (b.name.length : ℚ) + b.reach / 10) := by
  simp only [get_fighting_skill]
  refine ⟨fun h => ?_, fun h => ?_, fun h => ?_⟩ <;>
    split_ifs <;> first | ring1 | (exfalso; omega)

/-- Witness for C3 at the concrete boxer `bob` (age 22, so the young-age
modifier applies). -/
theorem get_fighting_skill_formula_witness :
    get_fighting_skill bob =
      (bob.weight : ℚ) * (bob.name.length : ℚ) + bob.reach / 10 - 1 :=
  (get_fighting_skill_formula bob).1 (by decide)

/-! ## C8: create-time validation and the inserted row -/

/-- C8: `create_boxer` fails with the distinct `ValueError` carrying the
offending field and value for weight < 125, height ≤ 0, reach ≤ 0 and age
outside [18,40] (the checks run in that order), and on a fresh name with
all four validations passing it inserts a row with `fights = 0` and
`wins = 0`. -/
theorem create_boxer_validation (db : List BoxerRow) (name : String)
    (weight height : Int) (reach : ℚ) (age : Int) :
    (weight < 125 →
      create_boxer db name weight height reach age =
        .error (.valueError s!"Invalid weight: {weight}. Must be at least 125.")) ∧
    (125 ≤ weight → height ≤ 0 →
      create_boxer db name weight height reach age =
        .error (.valueError s!"Invalid height: {height}. Must be greater than 0.")) ∧
    (125 ≤ weight → 0 < height → reach ≤ 0 →
      create_boxer db name weight height reach age =
        .error (.valueError s!"Invalid reach: {reach}. Must be greater than 0.")) ∧
    (125 ≤ weight → 0 < height → 0 < reach → ¬ (18 ≤ age ∧ age ≤ 40) →
      create_boxer db name weight height reach age =
        .error (.valueError s!"Invalid age: {age}. Must be between 18 and 40.")) ∧
    (125 ≤ weight → 0 < height → 0 < reach → 18 ≤ age → age ≤ 40 →
      (∀ r ∈ db, r.name ≠ name) →
      create_boxer db name weight height reach age =
        .ok (db ++ [⟨next_id db, name, weight, height, reach, age, 0, 0⟩])) := by
  unfold create_boxer insert_boxer
  refine ⟨?_, ?_, ?_, ?_, ?_⟩
  · intro h
    rw [if_pos h]
  · intro h1 h2
    rw [if_neg (by omega), if_pos h2]
  · intro h1 h2 h3
    rw [if_neg (by omega), if_neg (by omega), if_pos h3]
  · intro h1 h2 h3 h4
    rw [if_neg (by omega), if_neg (by omega), if_neg (by linarith), if_pos h4]
  · intro h1 h2 h3 h4 h5 hfresh
    have hany : db.any (fun r => r.name = name) = false := by
      simp only [List.any_eq_false, decide_eq_true_eq]
      exact hfresh
    rw [if_neg (by omega), if_neg (by omega), if_neg (by linarith),
      if_neg (by omega)]
    simp only [hany, Bool.false_eq_true, if_false]

/-- Witness for C8: creating a fresh valid boxer in the empty table
inserts the zero-stats row. -/
theorem create_boxer_validation_witness :
    create_boxer [] "Ali" 210 180 80 30 = .ok [⟨1, "Ali", 210, 180, 80, 30, 0, 0⟩] := by
  have h := (create_boxer_validation [] "Ali" 210 180 80 30).2.2.2.2
    (by decide) (by decide) (by norm_num) (by decide) (by decide)
    (by intro r hr; simp at hr)
  simpa [next_id] using h

/-! ## C6: both duplicate-name paths give the same error kind -/

/-- C6: on valid input whose name is already stored, `create_boxer` fails
with the duplicate-name `ValueError` (the pre-check path); and the
`IntegrityError` raised by the unique constraint of the store is normalized by
the handler to the very same error, so both paths surface one error
kind. -/
theorem create_boxer_duplicate (db : List BoxerRow) (name : String)
    (weight height : Int) (reach : ℚ) (age : Int)
    (hw : 125 ≤ weight) (hh : 0 < height) (hr : 0 < reach)
    (ha : 18 ≤ age ∧ age ≤ 40) (hdup : ∃ r ∈ db, r.name = name) :
    create_boxer db name weight height reach age =
      .error (.valueError s!"Boxer with name \x27{name}\x27 already exists") ∧
    normalize_create_error name .integrityError =
      .valueError s!"Boxer with name \x27{name}\x27 already exists" := by
  constructor
  · have hany : db.any (fun r => r.name = name) = true := by
      simp only [List.any_eq_true, decide_eq_true_eq]
      exact hdup
    unfold create_boxer
    rw [if_neg (by omega), if_neg (by omega), if_neg (by linarith),
      if_neg (by omega)]
    simp only [hany, if_true]
    rfl
  · rfl

/-- Witness for C6 at a concrete duplicate: `ali` is already stored in
`sampleDb`. -/
theorem create_boxer_duplicate_witness :
    create_boxer sampleDb "Ali" 210 180 80 30 =
      .error (.valueError "Boxer with name \x27Ali\x27 already exists") ∧
    normalize_create_error "Ali" .integrityError =
      .valueError "Boxer with name \x27Ali\x27 already exists" :=
  create_boxer_duplicate sampleDb "Ali" 210 180 80 30
    (by decide) (by decide) (by norm_num) (by decide)
    ⟨aliRow, by decide, by decide⟩

/-! ## C4: stat updates -/

/-- C4: `update_boxer_stats` rejects any outcome other than `"win"` or
`"loss"` with the invalid-result `ValueError`; with a valid outcome but an
absent id it fails with the not-found `ValueError`; on a stored id,
`"win"` bumps `fights` and `wins` by one and `"loss"` bumps only `fights`,
every other field and every other row staying exactly as it was (the
update is a pointwise map touching only the counters of the matching row). -/
theorem update_boxer_stats_spec (db : List BoxerRow) (boxer_id : Int) :
    (∀ result : String, result ≠ "win" → result ≠ "loss" →
      update_boxer_stats db boxer_id result =
        .error (.valueError
          s!"Invalid result: {result}. Expected \x27win\x27 or \x27loss\x27.")) ∧
    (∀ result : String, (result = "win" ∨ result = "loss") →
      (∀ r ∈ db, r.id ≠ boxer_id) →
      update_boxer_stats db boxer_id result =
        .error (.valueError s!"Boxer with ID {boxer_id} not found.")) ∧
    ((∃ r ∈ db, r.id = boxer_id) →
      update_boxer_stats db boxer_id "win" =
        .ok (db.map fun r => if r.id = boxer_id then
          { r with fights := r.fights + 1, wins := r.wins + 1 } else r)) ∧
    ((∃ r ∈ db, r.id = boxer_id) →
      update_boxer_stats db boxer_id "loss" =
        .ok (db.map fun r => if r.id = boxer_id then
          { r with fights := r.fights + 1 } else r)) := by
  refine ⟨?_, ?_, ?_, ?_⟩
  · intro result hw hl
    unfold update_boxer_stats
    rw [if_pos ⟨hw, hl⟩]
  · intro result hres habsent
    have hall : db.all (fun r => r.id ≠ boxer_id) = true := by
      simp only [List.all_eq_true, decide_eq_true_eq]
      exact habsent
    unfold update_boxer_stats
    rcases hres with h | h <;> subst h
    · rw [if_neg (by simp), if_pos hall]
    · rw [if_neg (by simp), if_pos hall]
  · intro hpresent
    have hall : ¬ db.all (fun r => r.id ≠ boxer_id) = true := by
      simp only [List.all_eq_true, decide_eq_true_eq]
      push_neg
      obtain ⟨r, hmem, hid⟩ := hpresent
      exact ⟨r, hmem, hid⟩
    unfold update_boxer_stats
    rw [if_neg (by simp), if_neg hall, if_pos rfl]
  · intro hpresent
    have hall : ¬ db.all (fun r => r.id ≠ boxer_id) = true := by
      simp only [List.all_eq_true, decide_eq_true_eq]
      push_neg
      obtain ⟨r, hmem, hid⟩ := hpresent
      exact ⟨r, hmem, hid⟩
    unfold update_boxer_stats
    rw [if_neg (by simp), if_neg hall, if_neg (by simp)]

/-- Witness for C4: a win recorded for `bobRow` (id 2) in the sample table
bumps its counters from 3 fights / 2 wins to 4 / 3 and leaves `aliRow`
untouched. -/
theorem update_boxer_stats_spec_witness :
    update_boxer_stats sampleDb 2 "win" =
      .ok [aliRow, ⟨2, "Bob", 140, 170, 70, 22, 4, 3⟩] := by
  have h := (update_boxer_stats_spec sampleDb 2).2.2.1
    ⟨bobRow, by decide, by decide⟩
  rw [h]
  rfl

/-! ## C10: snapshots always carry the derived weight class -/

/-- Below 125, `get_weight_class` raises the invalid-weight `ValueError`. -/
lemma get_weight_class_error_of_lt {w : Int} (h : w < 125) :
    get_weight_class w =
      .error (.valueError s!"Invalid weight: {w}. Weight must be at least 125.") := by
  unfold get_weight_class
  split_ifs <;> first | rfl | (exfalso; omega)

/-- C10: a successfully constructed `Boxer` satisfies
`get_weight_class weight = ok weight_class` (hence `125 ≤ weight`), because
`__post_init__` derives the class at construction; consequently
`get_boxer_by_id` and `get_boxer_by_name` raise the invalid-weight error
instead of returning a snapshot whenever the stored row has
`weight < 125`. -/
theorem boxer_weight_class_invariant :
    (∀ (id : Int) (name : String) (weight height : Int) (reach : ℚ)
        (age : Int) (b : Boxer),
      mkBoxer id name weight height reach age = .ok b →
      get_weight_class b.weight = .ok b.weight_class ∧ 125 ≤ b.weight) ∧
    (∀ (db : List BoxerRow) (boxer_id : Int) (row : BoxerRow),
      db.find? (fun r => r.id = boxer_id) = some row → row.weight < 125 →
      get_boxer_by_id db boxer_id =
        .error (.valueError
          s!"Invalid weight: {row.weight}. Weight must be at least 125.")) ∧
    (∀ (db : List BoxerRow) (boxer_name : String) (row : BoxerRow),
      db.find? (fun r => r.name = boxer_name) = some row → row.weight < 125 →
      get_boxer_by_name db boxer_name =
        .error (.valueError
          s!"Invalid weight: {row.weight}. Weight must be at least 125.")) := by
  refine ⟨?_, ?_, ?_⟩
  · intro id name weight height reach age b hok
    unfold mkBoxer at hok
    cases hwc : get_weight_class weight with
    | ok wc =>
        rw [hwc] at hok
        cases hok
        exact ⟨hwc, le_of_get_weight_class_ok hwc⟩
    | error e =>
        rw [hwc] at hok
        cases hok
  · intro db boxer_id row hfind hlt
    unfold get_boxer_by_id mkBoxer
    rw [hfind]
    simp [get_weight_class_error_of_lt hlt]
  · intro db boxer_name row hfind hlt
    unfold get_boxer_by_name mkBoxer
    rw [hfind]
    simp [get_weight_class_error_of_lt hlt]

/-- Witness for C10: a stored row with weight 100 makes `get_boxer_by_id`
raise instead of returning a snapshot. -/
theorem boxer_weight_class_invariant_witness :
    get_boxer_by_id [⟨7, "Tiny", 100, 150, 50, 20, 0, 0⟩] 7 =
      .error (.valueError "Invalid weight: 100. Weight must be at least 125.") := by
  have h := boxer_weight_class_invariant.2.1
    [⟨7, "Tiny", 100, 150, 50, 20, 0, 0⟩] 7 ⟨7, "Tiny", 100, 150, 50, 20, 0, 0⟩
    (by decide) (by decide)
  simpa using h

/-! ## C9: the ring never holds more than two boxers -/

/-- One caller-visible operation on a `RingModel` instance. -/
inductive RingOp where
  | enter (arg : RingArg)
  | clear
  | fight (db : List BoxerRow) (r : ℝ)
  | get

/-- The ring contents after one operation: an operation that raises leaves
the list as it was (`enter_ring` and `fight` mutate only on success,
`get_boxers` never mutates). -/
noncomputable def ring_after (ring : List Boxer) : RingOp → List Boxer
  | .enter arg =>
      match enter_ring ring arg with
      | .ok ring2 => ring2
      | .error _ => ring
  | .clear => clear_ring ring
  | .fight db r =>
      match fight ring db r with
      | .ok out => out.ring
      | .error _ => ring
  | .get => ring

/-- The ring contents reached from a fresh `RingModel()` (empty list) by a
sequence of operations. -/
noncomputable def ring_reachable (ops : List RingOp) : List Boxer :=
  ops.foldl ring_after []

/-- A successful fight always leaves the ring empty. -/
lemma fight_ok_ring_empty {ring : List Boxer} {db : List BoxerRow} {r : ℝ}
    {out : FightOutcome} (h : fight ring db r = .ok out) : out.ring = [] := by
  match ring with
  | [] => simp [fight] at h
  | [b] => simp [fight] at h
  | b1 :: b2 :: rest =>
    simp only [fight] at h
    split at h
    · cases h
    · split at h
      · cases h
      · cases h
        simp [clear_ring]

/-- Every single operation preserves the two-boxer bound. -/
lemma ring_after_length_le (ring : List Boxer) (op : RingOp)
    (h : ring.length ≤ 2) : (ring_after ring op).length ≤ 2 := by
  cases op with
  | enter arg =>
      cases arg with
      | notBoxer t => simpa [ring_after, enter_ring] using h
      | boxer b =>
          by_cases h2 : ring.length ≥ 2
          · simpa [ring_after, enter_ring, h2] using h
          · simp only [ring_after, enter_ring, h2, if_false, if_neg h2]
            simp only [List.length_append, List.length_cons, List.length_nil]
            omega
  | clear =>
      cases ring <;> simp [ring_after, clear_ring]
  | fight db r =>
      simp only [ring_after]
      cases hf : fight ring db r with
      | ok out => simp [fight_ok_ring_empty hf]
      | error e => exact h
  | get => simpa [ring_after] using h

/-- C9: every reachable ring state holds at most two boxers, and
`enter_ring` behaves as specified: a `TypeError` for a non-`Boxer`
argument, the ring-is-full `ValueError` when two boxers are already
present, and an append otherwise; `clear_ring`, `fight` and `get_boxers`
likewise preserve the bound (they only ever shrink or keep the list). -/
theorem ring_capacity_invariant :
    (∀ ops : List RingOp, (ring_reachable ops).length ≤ 2) ∧
    (∀ (ring : List Boxer) (t : String),
      enter_ring ring (.notBoxer t) =
        .error (.typeError s!"Invalid type: Expected \x27Boxer\x27, got \x27{t}\x27")) ∧
    (∀ (ring : List Boxer) (b : Boxer), 2 ≤ ring.length →
      enter_ring ring (.boxer b) =
        .error (.valueError "Ring is full, cannot add more boxers.")) ∧
    (∀ (ring : List Boxer) (b : Boxer), ring.length < 2 →
      enter_ring ring (.boxer b) = .ok (ring ++ [b])) := by
  refine ⟨?_, ?_, ?_, ?_⟩
  · have key : ∀ (ops : List RingOp) (ring : List Boxer), ring.length ≤ 2 →
        (ops.foldl ring_after ring).length ≤ 2 := by
      intro ops
      induction ops with
      | nil => intro ring h; simpa using h
      | cons op tl ih =>
          intro ring h
          exact ih _ (ring_after_length_le ring op h)
    intro ops
    exact key ops [] (by simp)
  · intro ring t
    rfl
  · intro ring b h
    simp only [enter_ring]
    rw [if_pos h]
  · intro ring b h
    simp only [enter_ring]
    rw [if_neg (by omega : ¬ ring.length ≥ 2)]

/-- Witness for C9: entering a third boxer into a full ring raises the
ring-is-full error. -/
theorem ring_capacity_invariant_witness :
    enter_ring [ali, bob] (.boxer ali) =
      .error (.valueError "Ring is full, cannot add more boxers.") :=
  ring_capacity_invariant.2.2.1 [ali, bob] ali (by decide)

/-! ## Helper lemmas for `fight` -/

/-- The logistic value is at least one half on nonnegative inputs. -/
lemma one_half_le_normalized_delta {x : ℝ} (h : 0 ≤ x) :
    1 / 2 ≤ normalized_delta x := by
  unfold normalized_delta
  have he : Real.exp (-x) ≤ 1 := Real.exp_le_one_iff.mpr (by linarith)
  have hd : (0 : ℝ) < 1 + Real.exp (-x) := by positivity
  rw [div_le_div_iff₀ (by norm_num) hd]
  linarith

/-- A successful win update is the pointwise counter bump. -/
lemma update_stats_win_eq (db : List BoxerRow) (boxer_id : Int)
    (hid : ∃ r ∈ db, r.id = boxer_id) :
    update_boxer_stats db boxer_id "win" =
      .ok (db.map fun r => if r.id = boxer_id then
        { r with fights := r.fights + 1, wins := r.wins + 1 } else r) := by
  have hall : ¬ db.all (fun r => r.id ≠ boxer_id) = true := by
    simp only [List.all_eq_true, decide_eq_true_eq]
    push_neg
    obtain ⟨r, hmem, hidr⟩ := hid
    exact ⟨r, hmem, hidr⟩
  unfold update_boxer_stats
  rw [if_neg (by simp), if_neg hall, if_pos rfl]

/-- A successful loss update is the pointwise fights bump. -/
lemma update_stats_loss_eq (db : List BoxerRow) (boxer_id : Int)
    (hid : ∃ r ∈ db, r.id = boxer_id) :
    update_boxer_stats db boxer_id "loss" =
      .ok (db.map fun r => if r.id = boxer_id then
        { r with fights := r.fights + 1 } else r) := by
  have hall : ¬ db.all (fun r => r.id ≠ boxer_id) = true := by
    simp only [List.all_eq_true, decide_eq_true_eq]
    push_neg
    obtain ⟨r, hmem, hidr⟩ := hid
    exact ⟨r, hmem, hidr⟩
  unfold update_boxer_stats
  rw [if_neg (by simp), if_neg hall, if_neg (by simp)]

/-- Mapping an id-preserving row function over the table keeps the id
column. -/
lemma map_ids_of_id_preserving (db : List BoxerRow) (f : BoxerRow → BoxerRow)
    (hf : ∀ r, (f r).id = r.id) :
    (db.map f).map BoxerRow.id = db.map BoxerRow.id := by
  rw [List.map_map]
  exact List.map_congr_left (fun r _ => hf r)

/-- An id stored in one table is stored in any table with the same id
column. -/
lemma exists_id_of_map_ids_eq {db db2 : List BoxerRow} {x : Int}
    (hmap : db2.map BoxerRow.id = db.map BoxerRow.id)
    (h : ∃ r ∈ db, r.id = x) : ∃ r ∈ db2, r.id = x := by
  have hx : x ∈ db.map BoxerRow.id := by
    obtain ⟨r, hr, hrx⟩ := h
    exact List.mem_map.mpr ⟨r, hr, hrx⟩
  rw [← hmap] at hx
  obtain ⟨r, hr, hrx⟩ := List.mem_map.mp hx
  exact ⟨r, hr, hrx⟩

/-- With two entrants whose ids are stored, `fight` succeeds, clears the
ring, and returns the name of the first entrant exactly when the random draw is
below the logistic of the absolute skill gap. -/
lemma fight_ok (b1 b2 : Boxer) (rest : List Boxer) (db : List BoxerRow)
    (r : ℝ) (h1 : ∃ row ∈ db, row.id = b1.id)
    (h2 : ∃ row ∈ db, row.id = b2.id) :
    ∃ db2, fight (b1 :: b2 :: rest) db r =
      .ok ⟨if r < normalized_delta ((|get_fighting_skill b1 - get_fighting_skill b2| : ℚ) : ℝ)
           then b1.name else b2.name, [], db2⟩ := by
  by_cases hr : r < normalized_delta ((|get_fighting_skill b1 - get_fighting_skill b2| : ℚ) : ℝ)
  · have hw := update_stats_win_eq db b1.id h1
    have hids := map_ids_of_id_preserving db
      (fun row => if row.id = b1.id then
        { row with fights := row.fights + 1, wins := row.wins + 1 } else row)
      (fun row => by by_cases hcase : row.id = b1.id <;> simp [hcase])
    have h2m := exists_id_of_map_ids_eq hids h2
    have hl := update_stats_loss_eq _ b2.id h2m
    refine ⟨(db.map fun row => if row.id = b1.id then
        { row with fights := row.fights + 1, wins := row.wins + 1 } else row).map
        (fun row => if row.id = b2.id then
          { row with fights := row.fights + 1 } else row), ?_⟩
    simp only [fight, if_pos hr, hw, hl, clear_ring, List.isEmpty_cons,
      Bool.false_eq_true, if_false]
  · have hw := update_stats_win_eq db b2.id h2
    have hids := map_ids_of_id_preserving db
      (fun row => if row.id = b2.id then
        { row with fights := row.fights + 1, wins := row.wins + 1 } else row)
      (fun row => by by_cases hcase : row.id = b2.id <;> simp [hcase])
    have h1m := exists_id_of_map_ids_eq hids h1
    have hl := update_stats_loss_eq _ b1.id h1m
    refine ⟨(db.map fun row => if row.id = b2.id then
        { row with fights := row.fights + 1, wins := row.wins + 1 } else row).map
        (fun row => if row.id = b1.id then
          { row with fights := row.fights + 1 } else row), ?_⟩
    simp only [fight, if_neg hr, hw, hl, clear_ring, List.isEmpty_cons,
      Bool.false_eq_true, if_false]

/-! ## C1: the fight probability model -/

/-- C1: with two entrants, the win probability is the logistic
`1 / (1 + e^(−delta))` of `delta = |skill_1 − skill_2|` taken in entry
order, which is at least one half for every pair; the externally drawn
`r` decides the outcome — entrant 1 wins exactly when `r < p`, otherwise
entrant 2 wins. -/
theorem fight_logistic_probability (b1 b2 : Boxer) (rest : List Boxer)
    (db : List BoxerRow) (r : ℝ) (h1 : ∃ row ∈ db, row.id = b1.id)
    (h2 : ∃ row ∈ db, row.id = b2.id) :
    (1 / 2 : ℝ) ≤ normalized_delta
      ((|get_fighting_skill b1 - get_fighting_skill b2| : ℚ) : ℝ) ∧
    ∃ db2, fight (b1 :: b2 :: rest) db r =
      .ok ⟨if r < normalized_delta ((|get_fighting_skill b1 - get_fighting_skill b2| : ℚ) : ℝ)
           then b1.name else b2.name, [], db2⟩ :=
  ⟨one_half_le_normalized_delta (by positivity),
   fight_ok b1 b2 rest db r h1 h2⟩

/-- Witness for C1 at `ali` and `bob` in the sample table with draw 0. -/
theorem fight_logistic_probability_witness :
    (1 / 2 : ℝ) ≤ normalized_delta
      ((|get_fighting_skill ali - get_fighting_skill bob| : ℚ) : ℝ) ∧
    ∃ db2, fight [ali, bob] sampleDb 0 =
      .ok ⟨if (0 : ℝ) < normalized_delta ((|get_fighting_skill ali - get_fighting_skill bob| : ℚ) : ℝ)
           then ali.name else bob.name, [], db2⟩ :=
  fight_logistic_probability ali bob [] sampleDb 0
    ⟨aliRow, by decide, by decide⟩ ⟨bobRow, by decide, by decide⟩

/-! ## C2: entrant-count behaviour of `fight` -/

/-- C2: with fewer than two entrants `fight` fails with the
insufficient-entrants `ValueError` (the ring untouched); with exactly two
entrants whose stat updates succeed, it leaves the ring empty and returns
a name equal to the name of one of the two entrants. -/
theorem fight_entrant_count (db : List BoxerRow) (r : ℝ) :
    (∀ ring : List Boxer, ring.length < 2 →
      fight ring db r =
        .error (.valueError "There must be two boxers to start a fight.")) ∧
    (∀ b1 b2 : Boxer, (∃ row ∈ db, row.id = b1.id) →
      (∃ row ∈ db, row.id = b2.id) →
      ∃ (winner : String) (db2 : List BoxerRow),
        fight [b1, b2] db r = .ok ⟨winner, [], db2⟩ ∧
        (winner = b1.name ∨ winner = b2.name)) := by
  constructor
  · intro ring h
    rcases ring with _ | ⟨a, _ | ⟨b, rest⟩⟩
    · rfl
    · rfl
    · simp at h
      omega
  · intro b1 b2 h1 h2
    obtain ⟨db2, hf⟩ := fight_ok b1 b2 [] db r h1 h2
    refine ⟨_, db2, hf, ?_⟩
    split_ifs <;> simp

/-- Witness for C2: the empty ring fails, and `ali` against `bob` in the
sample table returns one of their names with the ring cleared. -/
theorem fight_entrant_count_witness :
    fight [] sampleDb 0 =
      .error (.valueError "There must be two boxers to start a fight.") ∧
    ∃ (winner : String) (db2 : List BoxerRow),
      fight [ali, bob] sampleDb 0 = .ok ⟨winner, [], db2⟩ ∧
      (winner = ali.name ∨ winner = bob.name) :=
  ⟨(fight_entrant_count sampleDb 0).1 [] (by simp),
   (fight_entrant_count sampleDb 0).2 ali bob
     ⟨aliRow, by decide, by decide⟩ ⟨bobRow, by decide, by decide⟩⟩

/-! ## C7: the leaderboard -/

/-- The stored row a leaderboard entry displays (every column except the
derived `weight_class` and `win_pct`). -/
def entry_row (e : LeaderboardEntry) : BoxerRow :=
  ⟨e.id, e.name, e.weight, e.height, e.reach, e.age, e.fights, e.wins⟩

/-- On a row of valid weight the entry builder succeeds, reproducing the
columns of the row and annotating the derived fields. -/
lemma leaderboard_entry_ok {r : BoxerRow} (h : 125 ≤ r.weight) :
    ∃ e, leaderboard_entry r = .ok e ∧ entry_row e = r ∧
      (get_weight_class e.weight).toOption = some e.weight_class ∧
      e.win_pct = round1 (win_pct_raw r * 100) := by
  obtain ⟨wc, hwc⟩ := get_weight_class_ok_of_le h
  refine ⟨⟨r.id, r.name, r.weight, r.height, r.reach, r.age, wc, r.fights,
    r.wins, round1 (win_pct_raw r * 100)⟩, ?_, rfl, ?_, rfl⟩
  · unfold leaderboard_entry
    rw [hwc]
  · rw [hwc]
    rfl

/-- Building entries for a list of valid-weight rows succeeds and is
column-faithful. -/
lemma mapM_leaderboard_entries (l : List BoxerRow)
    (hw : ∀ r ∈ l, 125 ≤ r.weight) :
    ∃ es, l.mapM leaderboard_entry = .ok es ∧
      es.map entry_row = l ∧
      ∀ e ∈ es, (get_weight_class e.weight).toOption = some e.weight_class ∧
        e.win_pct = round1 (win_pct_raw (entry_row e) * 100) := by
  induction l with
  | nil => exact ⟨[], rfl, rfl, by simp⟩
  | cons r tl ih =>
      obtain ⟨es, hes, hmap, hprops⟩ :=
        ih (fun x hx => hw x (List.mem_cons_of_mem r hx))
      obtain ⟨e, he, herow, hwc, hpct⟩ :=
        leaderboard_entry_ok (hw r (List.mem_cons_self r tl))
      refine ⟨e :: es, ?_, ?_, ?_⟩
      · simp only [List.mapM_cons, he, hes]
        rfl
      · simp [herow, hmap]
      · intro x hx
        rcases List.mem_cons.mp hx with h | h
        · subst h
          refine ⟨hwc, ?_⟩
          rw [herow]
          exact hpct
        · exact hprops x h

/-- Sorting on a descending key produces a descending pairwise-sorted
list. -/
lemma mergeSort_sorted_key {β : Type} [LinearOrder β] (key : BoxerRow → β)
    (l : List BoxerRow) :
    (l.mergeSort (fun a b => decide (key b ≤ key a))).Pairwise
      (fun a b => key b ≤ key a) := by
  have h := @List.sorted_mergeSort BoxerRow (fun a b => decide (key b ≤ key a))
    (fun a b c h1 h2 => by
      simp only [decide_eq_true_eq] at h1 h2 ⊢
      exact le_trans h2 h1)
    (fun a b => by
      simp only [Bool.or_eq_true, decide_eq_true_eq]
      exact le_total (key b) (key a)) l
  exact h.imp (fun hab => by simpa using hab)

/-- Unfolding `get_leaderboard` on `"wins"` unfolds to sort-then-annotate. -/
lemma get_leaderboard_wins_eq (db : List BoxerRow) :
    get_leaderboard db "wins" =
      ((db.filter (fun r => r.fights > 0)).mergeSort
        (fun a b => decide (b.wins ≤ a.wins))).mapM leaderboard_entry := rfl

/-- Unfolding `get_leaderboard` on `"win_pct"` unfolds to sort-then-annotate. -/
lemma get_leaderboard_winpct_eq (db : List BoxerRow) :
    get_leaderboard db "win_pct" =
      ((db.filter (fun r => r.fights > 0)).mergeSort
        (fun a b => decide (win_pct_raw b ≤ win_pct_raw a))).mapM
        leaderboard_entry := rfl

/-- C7: `get_leaderboard` rejects any `sort_by` outside
{"wins", "win_pct"} with a `ValueError`; on a valid metric over a table of
valid weights it returns exactly the boxers with `fights > 0` (as a
permutation reflecting the sort), each entry annotated with the derived
weight class and `win_pct = round(wins/fights × 100, 1)`, in descending
order of the chosen metric; and when no boxer has fought it returns the
empty list as a success. -/
theorem get_leaderboard_spec :
    (∀ (db : List BoxerRow) (sort_by : String),
      sort_by ≠ "wins" → sort_by ≠ "win_pct" →
      get_leaderboard db sort_by =
        .error (.valueError s!"Invalid sort_by parameter: {sort_by}")) ∧
    (∀ db : List BoxerRow, (∀ r ∈ db, 125 ≤ r.weight) →
      ∀ sort_by : String, sort_by = "wins" ∨ sort_by = "win_pct" →
      ∃ entries, get_leaderboard db sort_by = .ok entries ∧
        List.Perm (entries.map entry_row) (db.filter (fun r => r.fights > 0)) ∧
        (∀ e ∈ entries,
          (get_weight_class e.weight).toOption = some e.weight_class ∧
          e.win_pct = round1 (win_pct_raw (entry_row e) * 100)) ∧
        (sort_by = "wins" → entries.Pairwise (fun a b => b.wins ≤ a.wins)) ∧
        (sort_by = "win_pct" → entries.Pairwise (fun a b =>
          win_pct_raw (entry_row b) ≤ win_pct_raw (entry_row a)))) ∧
    (∀ db : List BoxerRow, (∀ r ∈ db, r.fights = 0) →
      ∀ sort_by : String, sort_by = "wins" ∨ sort_by = "win_pct" →
      get_leaderboard db sort_by = .ok []) := by
  refine ⟨?_, ?_, ?_⟩
  · intro db sort_by hw hp
    unfold get_leaderboard
    rw [if_pos ⟨hp, hw⟩]
  · intro db hw sort_by hsb
    rcases hsb with h | h <;> subst h
    · have hperm := List.mergeSort_perm (db.filter (fun r => r.fights > 0))
        (fun a b => decide (b.wins ≤ a.wins))
      have hsorted := mergeSort_sorted_key BoxerRow.wins
        (db.filter (fun r => r.fights > 0))
      have hwts : ∀ r ∈ (db.filter (fun r => r.fights > 0)).mergeSort
          (fun a b => decide (b.wins ≤ a.wins)), 125 ≤ r.weight := by
        intro r hr
        exact hw r (List.mem_filter.mp (hperm.mem_iff.mp hr)).1
      obtain ⟨es, hes, hmap, hprops⟩ := mapM_leaderboard_entries _ hwts
      refine ⟨es, ?_, ?_, hprops, fun _ => ?_, fun habs => absurd habs (by decide)⟩
      · rw [get_leaderboard_wins_eq]
        exact hes
      · rw [hmap]
        exact hperm
      · rw [← hmap] at hsorted
        exact List.pairwise_map.mp hsorted
    · have hperm := List.mergeSort_perm (db.filter (fun r => r.fights > 0))
        (fun a b => decide (win_pct_raw b ≤ win_pct_raw a))
      have hsorted := mergeSort_sorted_key win_pct_raw
        (db.filter (fun r => r.fights > 0))
      have hwts : ∀ r ∈ (db.filter (fun r => r.fights > 0)).mergeSort
          (fun a b => decide (win_pct_raw b ≤ win_pct_raw a)), 125 ≤ r.weight := by
        intro r hr
        exact hw r (List.mem_filter.mp (hperm.mem_iff.mp hr)).1
      obtain ⟨es, hes, hmap, hprops⟩ := mapM_leaderboard_entries _ hwts
      refine ⟨es, ?_, ?_, hprops, fun habs => absurd habs (by decide), fun _ => ?_⟩
      · rw [get_leaderboard_winpct_eq]
        exact hes
      · rw [hmap]
        exact hperm
      · rw [← hmap] at hsorted
        exact List.pairwise_map.mp hsorted
  · intro db hz sort_by hsb
    have hfil : db.filter (fun r => r.fights > 0) = [] := by
      rw [List.filter_eq_nil_iff]
      intro r hr
      simp [hz r hr]
    rcases hsb with h | h <;> subst h
    · rw [get_leaderboard_wins_eq, hfil]
      simp only [List.mergeSort_nil]
      rfl
    · rw [get_leaderboard_winpct_eq, hfil]
      simp only [List.mergeSort_nil]
      rfl

/-- Witness for C7: the one-row table holding `bobRow` (3 fights, 2 wins)
under the `"wins"` metric. -/
theorem get_leaderboard_spec_witness :
    ∃ entries, get_leaderboard [bobRow] "wins" = .ok entries ∧
      List.Perm (entries.map entry_row) ([bobRow].filter (fun r => r.fights > 0)) ∧
      (∀ e ∈ entries,
        (get_weight_class e.weight).toOption = some e.weight_class ∧
        e.win_pct = round1 (win_pct_raw (entry_row e) * 100)) ∧
      ("wins" = "wins" → entries.Pairwise (fun a b => b.wins ≤ a.wins)) ∧
      ("wins" = "win_pct" → entries.Pairwise (fun a b =>
        win_pct_raw (entry_row b) ≤ win_pct_raw (entry_row a))) :=
  get_leaderboard_spec.2.1 [bobRow]
    (by
      intro r hr
      rw [List.mem_singleton.mp hr]
      decide)
    "wins" (Or.inl rfl)

end Boxing
